import Mathlib

/-!
Verification of the local heuristic classification engine of OmniAnalyzer-AI.

The core under study is `analyzeFileHardcoded` (src/unnamed/part_001), the
fallback classifier mapping a file's name and size to an `AnalysisResult`.
The embedding below translates that function and its helpers into Lean;
machine numbers are modelled as `Nat` (file sizes are non-negative and far
below 2^53, where JavaScript doubles are exact).
-/

namespace OmniAnalyzer

/-- The verdict union type `'SAFE' | 'CAUTION' | 'DANGER'` from the
`AnalysisResult` interface (src/unnamed/part_000). -/
inductive Verdict where
  | SAFE
  | CAUTION
  | DANGER
deriving DecidableEq, Repr

/-- The `AnalysisResult` interface (src/unnamed/part_000).  `metadata` is an
open string-keyed object; the local path only ever stores string values in
it, so it is embedded as an association list of strings.  `whyItsDangerous`
is optional in the interface and never set by the local path. -/
structure AnalysisResult where
  verdict : Verdict
  humanVerdict : String
  summary : String
  simpleExplanation : String
  isDangerous : Bool
  whyItsDangerous : Option String
  solutions : List String
  technicalDetails : String
  fileType : String
  metadata : List (String × String)
deriving DecidableEq, Repr

/-- Mirrors `file.name.split('.').pop()?.toLowerCase()` (src/unnamed/part_001
line 4).  `split('.')` always yields at least one segment, so `pop()` never
returns `undefined`: the result is the lower-cased text after the last `.`,
the whole lower-cased name when no `.` occurs, and the empty string when the
name is empty or ends in `.`.  Lower-casing is ASCII, which covers every
rule extension and every input exercised by the specification. -/
def extOf (name : String) : String :=
  String.mk (((name.data.reverse.takeWhile (fun c => c ≠ '.')).reverse).map
    Char.toLower)

/-- Numerator of `(size / 1024).toFixed(2)` scaled by 100: division of an
exact integer by 1024 is exact in a double, and `toFixed` rounds to the
nearest hundredth picking the larger value on ties, i.e. half-up for the
non-negative sizes in scope. -/
def kb100 (size : Nat) : Nat :=
  (size * 100 + 512) / 1024

/-- Two-digit zero-padded rendering of the fractional hundredths. -/
def pad2 (n : Nat) : String :=
  if n < 10 then "0" ++ toString n else toString n

/-- Mirrors the string produced by `(size / 1024).toFixed(2)`
(src/unnamed/part_001 line 12). -/
def kbString (size : Nat) : String :=
  toString (kb100 size / 100) ++ "." ++ pad2 (kb100 size % 100)

/-- The DANGER rule extensions (src/unnamed/part_001 line 15). -/
def dangerExts : List String := ["exe", "msi", "bat", "sh", "cmd", "vbs"]

/-- The archive CAUTION rule extensions (src/unnamed/part_001 line 20). -/
def archiveExts : List String := ["zip", "rar", "7z"]

/-- The web-content CAUTION rule extensions (src/unnamed/part_001 line 24). -/
def webExts : List String := ["html", "htm", "js", "svg"]

/-- The mutable-variable block of `analyzeFileHardcoded` (src/unnamed/part_001
lines 8-31): `verdict`, `humanVerdict`, `simpleExplanation` and `solutions`
are initialised to the SAFE defaults and overwritten by the
`if / else if / else if` cascade keyed on the derived extension, which is
exactly a first-match cascade producing the four values. -/
def ruleOutcome (ext : String) : Verdict × String × String × List String :=
  if dangerExts.contains ext then
      (Verdict.DANGER,
       "High Risk: Executable File detected.",
       "This is a program that can run code on your computer. Unless you trust the source 100%, do not open it.",
       ["Scan this file with a dedicated Antivirus.",
        "Do not run as Administrator.",
        "Check the digital signature if possible."])
    else if archiveExts.contains ext then
      (Verdict.CAUTION,
       "Proceed with Caution: Compressed Archive.",
       "Archives can hide dangerous files inside them. It\x27s safe to look, but be careful what you extract.",
       ["Open the archive to see what\x27s inside before extracting.",
        "Ensure your zip tool is up to date."])
    else if webExts.contains ext then
      (Verdict.CAUTION,
       "Caution: Web Content.",
       "This file contains code that runs in your browser. It could potentially redirect you to phishing sites.",
       ["Open in a private/incognito window.",
        "Check for suspicious scripts if you are a developer."])
    else
      (Verdict.SAFE,
       "This file looks safe to open.",
       "I\x27ve checked the file format and it matches standard patterns.",
       ["You can open this file with any compatible viewer.",
        "Always keep your software updated."])

/-- Shallow embedding of `analyzeFileHardcoded` (src/unnamed/part_001): the
derived extension (line 4), the `technicalDetails` template (line 12), the
classification cascade (`ruleOutcome`, lines 8-31) and the return literal
(lines 33-45).  The function is total: every `(name, size)` input produces a
fully populated result. -/
def analyzeFileHardcoded (name : String) (size : Nat) : AnalysisResult :=
  let ext := extOf name
  let technicalDetails :=
    "Format: " ++ String.mk (ext.data.map Char.toUpper) ++ "\nSize: " ++
      kbString size ++ " KB"
  let (verdict, humanVerdict, simpleExplanation, solutions) := ruleOutcome ext
  { verdict := verdict
    humanVerdict := humanVerdict
    summary := "Basic analysis of " ++ name
    simpleExplanation := simpleExplanation
    isDangerous := verdict == Verdict.DANGER
    whyItsDangerous := none
    solutions := solutions
    technicalDetails := technicalDetails
    fileType := if ext == "" then "unknown" else ext
    metadata :=
      [("suggestedApp", "Standard system viewer"),
       ("securityLevel",
        if verdict == Verdict.SAFE then "Low Risk" else "High Risk")] }

/-- The reference rule table of the specification (§4.1), in priority order:
this definition follows the spec text, to be compared with the cascade the
source implements. -/
def ruleTable : List (List String × Verdict) :=
  [(dangerExts, Verdict.DANGER),
   (archiveExts, Verdict.CAUTION),
   (webExts, Verdict.CAUTION)]

/-- First-match-wins lookup over `ruleTable` with the default SAFE rule,
following the spec §4.1 matching algorithm. -/
def tableVerdict (ext : String) : Verdict :=
  match ruleTable.find? (fun r => r.1.contains ext) with
  | some r => r.2
  | none => Verdict.SAFE

/-- Token containment: `leadMatch needle hay` holds when `needle` is an
initial run of `hay`; used to state that one string occurs inside another. -/
def leadMatch : List Char → List Char → Bool
  | [], _ => true
  | _ :: _, [] => false
  | a :: as, b :: bs => a == b && leadMatch as bs

/-- Whether `needle` occurs contiguously anywhere inside the second list. -/
def containsTok (needle : List Char) : List Char → Bool
  | [] => needle.isEmpty
  | c :: cs => leadMatch needle (c :: cs) || containsTok needle cs

/-- Modelled from the spec: §4.2 gives ResultModel a structurally-typed
candidate as input ("any structurally-typed candidate object (from Classifier
or from a remote analyzer's parsed response)"); the repository's src/ has no
validator, only the remote response-schema declaration, so candidates are
embedded as JSON-like values. -/
inductive JValue where
  | str (s : String)
  | bool (b : Bool)
  | num (n : Int)
  | arr (elems : List JValue)
  | obj (fields : List (String × JValue))

/-- Modelled from the spec: the §7 error taxonomy of ResultModel.validate. -/
inductive ValidationError where
  | SchemaViolation
  | InvariantViolation
deriving DecidableEq, Repr

/-- First binding of a key in a JSON object's field list. -/
def getField (fields : List (String × JValue)) (k : String) : Option JValue :=
  (fields.find? (fun p => p.1 == k)).map (fun p => p.2)

/-- String value of a field, `none` when missing or of another kind. -/
def strField (fields : List (String × JValue)) (k : String) : Option String :=
  match getField fields k with
  | some (JValue.str s) => some s
  | _ => none

/-- Boolean value of a field, `none` when missing or of another kind. -/
def boolField (fields : List (String × JValue)) (k : String) : Option Bool :=
  match getField fields k with
  | some (JValue.bool b) => some b
  | _ => none

/-- The three admissible verdict strings, case-sensitive (spec §4.2). -/
def verdictStrings : List String := ["SAFE", "CAUTION", "DANGER"]

/-- Whether a JSON value is a string. -/
def isStrElem : JValue → Bool
  | JValue.str _ => true
  | _ => false

/-- Modelled from the spec: the `solutions` field must be a non-empty ordered
sequence of strings. -/
def solutionsOk (fields : List (String × JValue)) : Bool :=
  match getField fields "solutions" with
  | some (JValue.arr xs) => !xs.isEmpty && xs.all isStrElem
  | _ => false

/-- Modelled from the spec: `metadata` must be an object containing at least
the keys `suggestedApp` and `securityLevel`. -/
def metadataOk (fields : List (String × JValue)) : Bool :=
  match getField fields "metadata" with
  | some (JValue.obj m) =>
    (getField m "suggestedApp").isSome && (getField m "securityLevel").isSome
  | _ => false

/-- Modelled from the spec: the §4.2 schema check — every required field
present with the right primitive kind and `verdict` inside the enum. -/
def schemaOk (fields : List (String × JValue)) : Bool :=
  (match strField fields "verdict" with
   | some v => verdictStrings.contains v
   | none => false) &&
  (strField fields "humanVerdict").isSome &&
  (strField fields "summary").isSome &&
  (strField fields "simpleExplanation").isSome &&
  (boolField fields "isDangerous").isSome &&
  solutionsOk fields &&
  (strField fields "technicalDetails").isSome &&
  (strField fields "fileType").isSome &&
  metadataOk fields

/-- Modelled from the spec: the §4.2 invariant check,
`isDangerous == (verdict == DANGER)`. -/
def invariantOk (fields : List (String × JValue)) : Bool :=
  match strField fields "verdict", boolField fields "isDangerous" with
  | some v, some b => b == (v == "DANGER")
  | _, _ => false

/-- Modelled from the spec: `ResultModel.validate(candidate)`, absent from
src/ — schema problems fail with `SchemaViolation`, a well-formed candidate
whose `isDangerous` disagrees with its verdict fails with
`InvariantViolation`, and a valid candidate is returned unchanged as the
validated result. -/
def validate (candidate : JValue) : Except ValidationError JValue :=
  match candidate with
  | JValue.obj fields =>
    if schemaOk fields then
      if invariantOk fields then Except.ok candidate
      else Except.error ValidationError.InvariantViolation
    else Except.error ValidationError.SchemaViolation
  | _ => Except.error ValidationError.SchemaViolation

/-- A schema-correct candidate claiming verdict DANGER while
`isDangerous` is `false` (the spec §8 validation-rejection scenario). -/
def candidateDangerNotFlagged : List (String × JValue) :=
  [("verdict", JValue.str "DANGER"),
   ("humanVerdict", JValue.str "High Risk: Executable File detected."),
   ("summary", JValue.str "Basic analysis of setup.exe"),
   ("simpleExplanation", JValue.str "This is a program."),
   ("isDangerous", JValue.bool false),
   ("solutions", JValue.arr [JValue.str "Scan this file."]),
   ("technicalDetails", JValue.str "Format: EXE"),
   ("fileType", JValue.str "exe"),
   ("metadata", JValue.obj
     [("suggestedApp", JValue.str "Standard system viewer"),
      ("securityLevel", JValue.str "High Risk")])]

/-- `candidateDangerNotFlagged` with its required `verdict` field removed. -/
def candidateMissingVerdict : List (String × JValue) :=
  candidateDangerNotFlagged.filter (fun p => p.1 != "verdict")

/-- `candidateDangerNotFlagged` with `isDangerous` of the wrong primitive
kind: a string instead of a boolean. -/
def candidateWrongKind : List (String × JValue) :=
  candidateDangerNotFlagged.map
    (fun p => if p.1 == "isDangerous" then (p.1, JValue.str "true") else p)

/-- First value bound to a key in the classifier's metadata mapping. -/
def lookupMeta (m : List (String × String)) (k : String) : Option String :=
  (m.find? (fun p => p.1 == k)).map (fun p => p.2)

example : extOf "setup.exe" = "exe" := by decide
example : extOf "payload.exe.zip" = "zip" := by decide
example : extOf "notes" = "notes" := by decide
example : extOf "README" = "readme" := by decide
example : extOf "archive." = "" := by decide
example : extOf "" = "" := by decide
example : kbString 0 = "0.00" := by decide
example : kbString 2000000 = "1953.13" := by decide
example : kbString 10240 = "10.00" := by decide
example : (analyzeFileHardcoded "setup.exe" 2000000).verdict = Verdict.DANGER := by
  decide
example : (analyzeFileHardcoded "README" 100).fileType = "readme" := by decide

theorem analyze_verdict_eq (name : String) (size : Nat) :
    (analyzeFileHardcoded name size).verdict = (ruleOutcome (extOf name)).1 := rfl

theorem analyze_solutions_eq (name : String) (size : Nat) :
    (analyzeFileHardcoded name size).solutions =
      (ruleOutcome (extOf name)).2.2.2 := rfl

theorem analyze_fileType_eq (name : String) (size : Nat) :
    (analyzeFileHardcoded name size).fileType =
      (if extOf name == "" then "unknown" else extOf name) := rfl

theorem analyze_isDangerous_eq (name : String) (size : Nat) :
    (analyzeFileHardcoded name size).isDangerous =
      ((ruleOutcome (extOf name)).1 == Verdict.DANGER) := rfl

theorem analyze_metadata_eq (name : String) (size : Nat) :
    (analyzeFileHardcoded name size).metadata =
      [("suggestedApp", "Standard system viewer"),
       ("securityLevel",
        if (ruleOutcome (extOf name)).1 == Verdict.SAFE then "Low Risk"
        else "High Risk")] := rfl

theorem analyze_technicalDetails_eq (name : String) (size : Nat) :
    (analyzeFileHardcoded name size).technicalDetails =
      "Format: " ++ String.mk ((extOf name).data.map Char.toUpper) ++ "\nSize: " ++
        kbString size ++ " KB" := rfl

theorem ruleOutcome_verdict_eq_tableVerdict (ext : String) :
    (ruleOutcome ext).1 = tableVerdict ext := by
  unfold ruleOutcome tableVerdict ruleTable
  by_cases h1 : ext ∈ dangerExts <;>
    by_cases h2 : ext ∈ archiveExts <;>
      by_cases h3 : ext ∈ webExts <;>
        simp [h1, h2, h3, List.find?]

theorem ruleOutcome_solutions_length (ext : String) :
    0 < (ruleOutcome ext).2.2.2.length := by
  unfold ruleOutcome
  split
  · simp
  · split
    · simp
    · split <;> simp

theorem extOf_of_no_dot (name : String) (h : '.' ∉ name.data) :
    extOf name = String.mk (name.data.map Char.toLower) := by
  unfold extOf
  have hall : ∀ c ∈ name.data.reverse, (fun c => decide (c ≠ '.')) c := by
    intro c hc
    have : c ∈ name.data := List.mem_reverse.mp hc
    simp only [decide_eq_true_eq]
    intro he
    exact h (he ▸ this)
  rw [List.takeWhile_eq_self_iff.mpr hall, List.reverse_reverse]

theorem mk_eq_empty_iff (l : List Char) : String.mk l = "" ↔ l = [] := by
  constructor
  · intro h
    exact congrArg String.data h
  · intro h
    rw [h]

theorem extOf_eq_empty_iff (name : String) :
    extOf name = "" ↔ name.data = [] ∨ name.data.getLast? = some '.' := by
  unfold extOf
  rw [mk_eq_empty_iff, List.map_eq_nil_iff, List.reverse_eq_nil_iff,
    List.getLast?_eq_head?_reverse]
  cases hrev : name.data.reverse with
  | nil =>
    have hnil : name.data = [] := List.reverse_eq_nil_iff.mp hrev
    simp [hnil]
  | cons c cs =>
    have hne : name.data ≠ [] := by
      intro h0
      rw [h0] at hrev
      exact List.cons_ne_nil c cs hrev.symm
    rw [List.takeWhile_cons]
    by_cases hc : c = '.'
    · simp [hc, hne]
    · simp [hc, hne]

theorem leadMatch_self_append (n b : List Char) :
    leadMatch n (n ++ b) = true := by
  induction n with
  | nil => rfl
  | cons a as ih => simp [leadMatch, ih]

theorem containsTok_self_append (n b : List Char) :
    containsTok n (n ++ b) = true := by
  cases n with
  | nil =>
    cases b with
    | nil => rfl
    | cons c cs => simp [containsTok, leadMatch]
  | cons a as =>
    show (leadMatch (a :: as) ((a :: as) ++ b) ||
      containsTok (a :: as) (as ++ b)) = true
    rw [leadMatch_self_append]
    rfl

theorem containsTok_append_left (n a h : List Char)
    (hh : containsTok n h = true) : containsTok n (a ++ h) = true := by
  induction a with
  | nil => simpa using hh
  | cons c cs ih => simp [containsTok, ih]

theorem containsTok_of_append (n h a b : List Char)
    (he : h = a ++ (n ++ b)) : containsTok n h = true := by
  rw [he]
  exact containsTok_append_left n a (n ++ b) (containsTok_self_append n b)

/-- C1: for every FileDescriptor the classifier's verdict is the
first-match-wins lookup of the derived extension in the reference rule table
(exe/msi/bat/sh/cmd/vbs to DANGER; zip/rar/7z to CAUTION; html/htm/js/svg to
CAUTION; default SAFE), the result's fileType equals the derived extension
whenever one is derived, and `setup.exe` of size 2000000 yields DANGER with
fileType `exe`. -/
theorem classify_follows_rule_table (name : String) (size : Nat) :
    (analyzeFileHardcoded name size).verdict = tableVerdict (extOf name) ∧
    (extOf name ≠ "" →
      (analyzeFileHardcoded name size).fileType = extOf name) ∧
    (analyzeFileHardcoded "setup.exe" 2000000).verdict = Verdict.DANGER ∧
    (analyzeFileHardcoded "setup.exe" 2000000).fileType = "exe" := by
  refine ⟨?_, ?_, by decide, by decide⟩
  · rw [analyze_verdict_eq]
    exact ruleOutcome_verdict_eq_tableVerdict (extOf name)
  · intro h
    rw [analyze_fileType_eq]
    simp [h]

/-- C1 witness: the fileType clause evaluated at `setup.exe`. -/
theorem classify_follows_rule_table_witness :
    (analyzeFileHardcoded "setup.exe" 2000000).fileType = extOf "setup.exe" :=
  (classify_follows_rule_table "setup.exe" 2000000).2.1 (by decide)

/-- C2 counterexample: `exe` contains no `.`, yet the code classifies it
DANGER with fileType `exe` — not SAFE with fileType `unknown` as the claim
states for dot-less names. -/
theorem no_dot_name_cx :
    ("exe".data.contains '.') = false ∧
    (analyzeFileHardcoded "exe" 100).verdict = Verdict.DANGER ∧
    (analyzeFileHardcoded "exe" 100).fileType = "exe" := by
  decide

/-- C2 (amended): a dot-less name is lower-cased whole and used as the
derived extension, so `notes` classifies SAFE with fileType `notes` (not
`unknown`) and `README` SAFE with fileType `readme`, while a dot-less name
equal to a rule extension takes that rule's verdict; `data.unknownext`
classifies SAFE with fileType `unknownext`; solutions are non-empty. -/
theorem no_dot_uses_whole_name (name : String) (h : '.' ∉ name.data) :
    extOf name = String.mk (name.data.map Char.toLower) ∧
    (analyzeFileHardcoded "notes" 100).verdict = Verdict.SAFE ∧
    (analyzeFileHardcoded "notes" 100).fileType = "notes" ∧
    0 < (analyzeFileHardcoded "notes" 100).solutions.length ∧
    (analyzeFileHardcoded "README" 100).verdict = Verdict.SAFE ∧
    (analyzeFileHardcoded "README" 100).fileType = "readme" ∧
    (analyzeFileHardcoded "data.unknownext" 100).verdict = Verdict.SAFE ∧
    (analyzeFileHardcoded "data.unknownext" 100).fileType = "unknownext" ∧
    0 < (analyzeFileHardcoded "data.unknownext" 100).solutions.length :=
  ⟨extOf_of_no_dot name h, by decide, by decide, by decide, by decide,
   by decide, by decide, by decide, by decide⟩

/-- C2 witness: the whole-name clause evaluated at `notes`. -/
theorem no_dot_uses_whole_name_witness :
    extOf "notes" = String.mk ("notes".data.map Char.toLower) :=
  (no_dot_uses_whole_name "notes" (by decide)).1

/-- C3: the classifier is a total function — for every name and size it
returns a fully populated result whose verdict is one of SAFE, CAUTION or
DANGER, whose solutions are non-empty, and whose metadata carries both the
`suggestedApp` and `securityLevel` keys. -/
theorem classify_total_fully_populated (name : String) (size : Nat) :
    ((analyzeFileHardcoded name size).verdict = Verdict.SAFE ∨
     (analyzeFileHardcoded name size).verdict = Verdict.CAUTION ∨
     (analyzeFileHardcoded name size).verdict = Verdict.DANGER) ∧
    0 < (analyzeFileHardcoded name size).solutions.length ∧
    "suggestedApp" ∈ (analyzeFileHardcoded name size).metadata.map Prod.fst ∧
    "securityLevel" ∈ (analyzeFileHardcoded name size).metadata.map Prod.fst := by
  refine ⟨?_, ?_, ?_, ?_⟩
  · rw [analyze_verdict_eq]
    cases hv : (ruleOutcome (extOf name)).1 <;> simp [hv]
  · rw [analyze_solutions_eq]
    exact ruleOutcome_solutions_length (extOf name)
  · rw [analyze_metadata_eq]
    simp
  · rw [analyze_metadata_eq]
    simp

/-- C4: `isDangerous` equals `verdict == DANGER` on every result the
classifier produces — true exactly for DANGER, false for SAFE and
CAUTION. -/
theorem isDangerous_couples_verdict (name : String) (size : Nat) :
    (analyzeFileHardcoded name size).isDangerous =
      ((analyzeFileHardcoded name size).verdict == Verdict.DANGER) ∧
    (analyzeFileHardcoded "setup.exe" 100).isDangerous = true ∧
    (analyzeFileHardcoded "notes.txt" 100).isDangerous = false ∧
    (analyzeFileHardcoded "archive.zip" 100).isDangerous = false :=
  ⟨rfl, by decide, by decide, by decide⟩

/-- C5: extension derivation keeps only the final suffix, so
`payload.exe.zip` derives `zip` and classifies CAUTION — never DANGER — for
every size. -/
theorem final_suffix_wins (size : Nat) :
    extOf "payload.exe.zip" = "zip" ∧
    (analyzeFileHardcoded "payload.exe.zip" size).verdict = Verdict.CAUTION ∧
    ((analyzeFileHardcoded "payload.exe.zip" size).verdict ==
      Verdict.DANGER) = false := by
  refine ⟨by decide, ?_, ?_⟩
  · rw [analyze_verdict_eq]
    decide
  · rw [analyze_verdict_eq]
    decide

/-- C6 counterexample: for `archive.` no extension can be derived (the
derived extension is empty and fileType falls back to `unknown`), yet
technicalDetails reads `Format: ` with an empty format — the token
`UNKNOWN` does not occur in it, contrary to the claim. -/
theorem technicalDetails_no_unknown_token_cx :
    extOf "archive." = "" ∧
    (analyzeFileHardcoded "archive." 0).fileType = "unknown" ∧
    (analyzeFileHardcoded "archive." 0).technicalDetails =
      "Format: \nSize: 0.00 KB" ∧
    containsTok "UNKNOWN".data
      (analyzeFileHardcoded "archive." 0).technicalDetails.data = false := by
  decide

/-- C6 (amended): technicalDetails always contains the upper-cased derived
extension — an empty format field rather than the token `UNKNOWN` when no
extension can be derived — together with the KB rendering of sizeBytes. -/
theorem technicalDetails_contains_format_and_size (name : String)
    (size : Nat) :
    (analyzeFileHardcoded name size).technicalDetails =
      "Format: " ++ String.mk ((extOf name).data.map Char.toUpper) ++ "\nSize: " ++
        kbString size ++ " KB" ∧
    containsTok (String.mk ((extOf name).data.map Char.toUpper)).data
      (analyzeFileHardcoded name size).technicalDetails.data = true ∧
    containsTok (kbString size).data
      (analyzeFileHardcoded name size).technicalDetails.data = true := by
  refine ⟨analyze_technicalDetails_eq name size, ?_, ?_⟩
  · apply containsTok_of_append _ _ ("Format: ".data)
      (("\nSize: " ++ kbString size ++ " KB").data)
    rw [analyze_technicalDetails_eq]
    simp [List.append_assoc]
  · apply containsTok_of_append _ _
      (("Format: " ++ String.mk ((extOf name).data.map Char.toUpper) ++
        "\nSize: ").data) (" KB".data)
    rw [analyze_technicalDetails_eq]
    simp [List.append_assoc]

/-- C7: validate rejects with InvariantViolation every schema-correct
candidate whose isDangerous disagrees with `verdict == DANGER`; a candidate
with verdict DANGER and isDangerous false is so rejected, and a candidate
missing a required field, or carrying one of the wrong primitive kind, is
rejected with SchemaViolation. -/
theorem validate_rejects_bad_candidates
    (fields : List (String × JValue)) (v : String) (b : Bool)
    (hs : schemaOk fields = true)
    (hv : strField fields "verdict" = some v)
    (hb : boolField fields "isDangerous" = some b)
    (hne : (b == (v == "DANGER")) = false) :
    validate (JValue.obj fields) =
      Except.error ValidationError.InvariantViolation ∧
    validate (JValue.obj candidateDangerNotFlagged) =
      Except.error ValidationError.InvariantViolation ∧
    validate (JValue.obj candidateMissingVerdict) =
      Except.error ValidationError.SchemaViolation ∧
    validate (JValue.obj candidateWrongKind) =
      Except.error ValidationError.SchemaViolation := by
  refine ⟨?_, rfl, rfl, rfl⟩
  simp [validate, invariantOk, hs, hv, hb, hne]

/-- C7 witness: the general rejection clause evaluated at the
DANGER-but-not-flagged candidate. -/
theorem validate_rejects_bad_candidates_witness :
    validate (JValue.obj candidateDangerNotFlagged) =
      Except.error ValidationError.InvariantViolation :=
  (validate_rejects_bad_candidates candidateDangerNotFlagged "DANGER" false
    rfl rfl rfl rfl).1

/-- C8: every result's metadata carries the keys `suggestedApp` and
`securityLevel`, and `securityLevel` is `Low Risk` exactly when the verdict
is SAFE and `High Risk` otherwise. -/
theorem metadata_keys_and_securityLevel (name : String) (size : Nat) :
    "suggestedApp" ∈ (analyzeFileHardcoded name size).metadata.map Prod.fst ∧
    "securityLevel" ∈ (analyzeFileHardcoded name size).metadata.map Prod.fst ∧
    lookupMeta (analyzeFileHardcoded name size).metadata "securityLevel" =
      some (if (analyzeFileHardcoded name size).verdict = Verdict.SAFE
            then "Low Risk" else "High Risk") := by
  refine ⟨?_, ?_, ?_⟩
  · rw [analyze_metadata_eq]
    simp
  · rw [analyze_metadata_eq]
    simp
  · rw [analyze_metadata_eq, analyze_verdict_eq]
    cases hv : (ruleOutcome (extOf name)).1 <;> simp [lookupMeta, hv]

/-- C9: the classifier is deterministic — equal names and equal sizes give
field-for-field equal results; it reads nothing but its two inputs. -/
theorem classify_deterministic (n1 n2 : String) (s1 s2 : Nat)
    (hn : n1 = n2) (hs : s1 = s2) :
    analyzeFileHardcoded n1 s1 = analyzeFileHardcoded n2 s2 := by
  rw [hn, hs]

/-- C9 witness: determinism at a concrete descriptor. -/
theorem classify_deterministic_witness :
    analyzeFileHardcoded "setup.exe" 2000000 =
      analyzeFileHardcoded "setup.exe" 2000000 :=
  classify_deterministic "setup.exe" "setup.exe" 2000000 2000000 rfl rfl

/-- C10 counterexample: `doc.unknown` is non-empty and ends in `n`, not in
`.`, yet its fileType is the literal `unknown` (its genuine extension is the
word `unknown`), refuting the claim that fileType is `unknown` only for an
empty name or a name ending in `.`. -/
theorem fileType_unknown_extension_cx :
    (analyzeFileHardcoded "doc.unknown" 100).fileType = "unknown" ∧
    "doc.unknown".data.length = 11 ∧
    "doc.unknown".data.getLast? = some 'n' := by
  decide

/-- C10 (amended): a dot-less name is treated whole, lower-cased, as the
derived extension — `exe` classifies DANGER and `README` has fileType
`readme` — and fileType is the literal `unknown` exactly when the derived
extension is empty (the name is empty or ends in `.`) or is itself the
string `unknown`. -/
theorem no_dot_whole_name_extension (name : String) (size : Nat)
    (h : '.' ∉ name.data) :
    extOf name = String.mk (name.data.map Char.toLower) ∧
    (∀ n2 s2, (analyzeFileHardcoded n2 s2).fileType = "unknown" →
      extOf n2 = "" ∨ extOf n2 = "unknown") ∧
    (∀ n2 : String,
      extOf n2 = "" ↔ n2.data = [] ∨ n2.data.getLast? = some '.') ∧
    (analyzeFileHardcoded "exe" size).verdict = Verdict.DANGER ∧
    (analyzeFileHardcoded "README" size).fileType = "readme" ∧
    (analyzeFileHardcoded "doc.unknown" size).fileType = "unknown" := by
  refine ⟨extOf_of_no_dot name h, ?_, fun n2 => extOf_eq_empty_iff n2,
    ?_, ?_, ?_⟩
  · intro n2 s2 hfu
    rw [analyze_fileType_eq] at hfu
    by_cases he : extOf n2 = ""
    · exact Or.inl he
    · simp [he] at hfu
      exact Or.inr hfu
  · rw [analyze_verdict_eq]
    decide
  · rw [analyze_fileType_eq]
    decide
  · rw [analyze_fileType_eq]
    decide

/-- C10 witness: the whole-name clause at `exe` and the only-when clause at
`doc.unknown`. -/
theorem no_dot_whole_name_extension_witness :
    extOf "exe" = String.mk ("exe".data.map Char.toLower) ∧
    (extOf "doc.unknown" = "" ∨ extOf "doc.unknown" = "unknown") :=
  ⟨(no_dot_whole_name_extension "exe" 0 (by decide)).1,
   (no_dot_whole_name_extension "exe" 0 (by decide)).2.1 "doc.unknown" 0
     (by decide)⟩

end OmniAnalyzer
